import Mathlib

/-!
Verification of the order-decision and lifecycle-supervision core of the
TradingView→Alpaca bridge (`AlpacaTVBridge.py`).

The Python source is shallowly embedded: floats become rationals (`ℚ`),
the mutable `self.options` dict becomes an explicit `Opts` record threaded
through the functions, early `return`s become explicit outcome values, and
the unbounded polling loop of `verifyOrder` is given an explicit fuel
parameter.  Broker responses are modelled by an oracle (`World`) supplying
the order snapshot observed at each clock tick; wall-clock time advances by
one unit per `time.sleep(1)`.
-/

/-- Python `int()` applied to a rational: truncation toward zero. -/
def pyInt (q : ℚ) : ℤ := if q < 0 then ⌈q⌉ else ⌊q⌋

/-- Python `round` for a rational scaled into the integers: round half to even
(banker's rounding), which is the semantics of Python 3 `round`. -/
def roundHalfEven (q : ℚ) : ℤ :=
  let f := ⌊q⌋
  let r := q - f
  if r < 1/2 then f
  else if 1/2 < r then f + 1
  else if Even f then f else f + 1

/-- Python `round(x, 2)`: round to two decimal places, half to even. -/
def round2 (q : ℚ) : ℚ := (roundHalfEven (100 * q) : ℚ) / 100

/-- Order side, from `alpaca.trading.enums.OrderSide`. -/
inductive OrderSide
  | buy
  | sell
deriving DecidableEq, Repr

/-- The configuration dict `self.options` of `AutomatedTrader` (the module
level `settings` object).  Position objects are reduced to their quantity
(`.qty` is the only field read); order lists are reduced to lists of ids. -/
structure Opts where
  short : Bool
  buyPerc : ℚ
  balance : ℚ
  positions : Option ℚ
  orders : List ℕ
  allOrders : List ℕ
  testMode : Bool
  enabled : Bool
  limit : Bool
  limitamt : ℚ
  limitThreshold : ℚ
  limitPerc : ℚ
  maxTime : ℕ
  totalMaxTime : ℕ
  buyTimeout : String
  sellTimeout : String
deriving DecidableEq, Repr

/-- The parsed request `self.data` produced by `setData`: the raw captured
regex groups (`action` and `position` are the captured source texts, not
normalized). -/
structure SignalData where
  action : String
  position : Option String
  stock : String
  price : ℚ
deriving DecidableEq, Repr

/-- Outcome of the sizing part of `createOrder`:
either `orderType`+`submitOrder` is reached with a side and quantity,
or the method returns without an order (`noop`), or control falls out of the
unhandled `else` branch into `self.orderType(amount, side, ...)` with the
local variable `side` never assigned, raising `UnboundLocalError`. -/
inductive SizeOutcome
  | submit (side : OrderSide) (qty : ℚ)
  | noop
  | unboundSide
deriving DecidableEq, Repr

/-- The balance value `self.options["balance"]` holds after the test-mode /
negative-balance adjustment at the top of `createOrder`. -/
def effBalance (o : Opts) : ℚ :=
  if o.testMode then 100000
  else if o.balance < 0 then 0 else o.balance

/-- `amount = int(self.options["balance"] * self.options["buyPerc"] / self.data["price"])`
computed after the balance adjustment. -/
def cashAmount (o : Opts) (price : ℚ) : ℚ :=
  (pyInt (effBalance o * o.buyPerc / price) : ℚ)

/-- The final checks of `createOrder` after the action branches: `return` when
`amount == 0`, `return` when `amount < 0`, otherwise call
`self.orderType(amount, side, ...)` — which raises `UnboundLocalError` when no
branch assigned `side`. -/
def finalizeOrder (sideOpt : Option OrderSide) (amount : ℚ) : SizeOutcome :=
  if amount = 0 then .noop
  else if amount < 0 then .noop
  else
    match sideOpt with
    | none => .unboundSide
    | some s => .submit s amount

/-- The action/position branch structure of `createOrder` (lines 286-368 of
`AlpacaTVBridge.py`), translated branch for branch.  String comparisons are
exactly the source's case-sensitive comparisons against the literals
`"Open"`, `"Close"`, `"Bull"`, `"buy"`, `"Bear"`, `"sell"`, `"Long"`,
`"Short"`. -/
def sizeDecision (o : Opts) (d : SignalData) : SizeOutcome :=
  let amount := cashAmount o d.price
  let posQty : ℚ := o.positions.getD 0
  if d.action = "Open" ∧ d.position = some "Short" then
    -- side = OrderSide.SELL
    if posQty < 0 then .noop                                  -- already shorted: amount = 0; return
    else if ¬o.short ∧ posQty = 0 then finalizeOrder (some .sell) 0
    else if ¬o.short ∧ 0 < posQty then finalizeOrder (some .sell) posQty
    else if o.short ∧ 0 < posQty then finalizeOrder (some .sell) posQty
    else if o.short ∧ posQty = 0 then finalizeOrder (some .sell) amount
    else .noop                                               -- short ∧ posQty < 0: amount = 0; return
  else if d.action = "Close" ∧ d.position = some "Short" then
    -- side = OrderSide.BUY
    if 0 < posQty then .noop                                  -- already long: amount = 0; return
    else if posQty = 0 then finalizeOrder (some .buy) amount  -- pass: amount keeps the cash-sized value
    else finalizeOrder (some .buy) |posQty|
  else if (d.action = "Bull" ∨ d.action = "buy" ∨ d.action = "Open")
      ∧ (d.position = some "Long" ∨ d.position = none) then
    finalizeOrder (some .buy) (if o.positions ≠ none then 0 else amount)
  else if (d.action = "Bear" ∨ d.action = "sell" ∨ d.action = "Close")
      ∧ (d.position = some "Long" ∨ d.position = none) then
    finalizeOrder (some .sell) (if o.positions ≠ none ∧ 0 < posQty then 0 + posQty else 0)
  else
    finalizeOrder none amount                                -- unhandled: logged, side never assigned

/-- An order request built by `orderType`: market or limit, always GTC. -/
inductive OrderReq
  | market (symbol : String) (qty : ℚ) (side : OrderSide)
  | limitReq (symbol : String) (limitPrice : ℚ) (qty : ℚ) (side : OrderSide)
deriving DecidableEq, Repr

/-- `orderType(amount, side, limit)`: returns the built request together with
the value `self.options["limitamt"]` holds afterwards (the limit branch
overwrites it in place with `price * limitPerc` when `price > limitThreshold`). -/
def orderType (o : Opts) (d : SignalData) (amount : ℚ) (side : OrderSide) (limit : Bool) :
    OrderReq × ℚ :=
  if ¬limit then (.market d.stock amount side, o.limitamt)
  else
    let la := if o.limitThreshold < d.price then d.price * o.limitPerc else o.limitamt
    (.limitReq d.stock
      (round2 (d.price + (if side = .buy then la else -la))) amount side, la)

/-- The `createOrder` call as a whole: its sizing outcome, paired with the
state of `self.options` after the call (balance adjusted at entry; `limitamt`
possibly overwritten by the `orderType` call on the submit path). -/
def createOrderRun (o : Opts) (d : SignalData) : SizeOutcome × Opts :=
  let o1 := { o with balance := effBalance o }
  match sizeDecision o d with
  | .submit s q => (.submit s q, { o1 with limitamt := (orderType o1 d q s o1.limit).2 })
  | out => (out, o1)

-- ---------------------------------------------------------------------------
-- Spec-side definitions (for refinement claims C1 and C6 only): these follow
-- the words of the specification, to be compared against the source
-- translations above.
-- ---------------------------------------------------------------------------

/-- Canonical action enum of spec §3, for the claimed case-insensitive
normalization of captured action text. -/
inductive CAction
  | openA
  | closeA
  | bull
  | bear
  | buyA
  | sellA
deriving DecidableEq, Repr

/-- Canonical position hint of spec §3. -/
inductive CHint
  | longH
  | shortH
deriving DecidableEq, Repr

/-- ASCII lower-casing of one character. -/
def lowerChar (c : Char) : Char :=
  if 65 ≤ c.toNat ∧ c.toNat ≤ 90 then Char.ofNat (c.toNat + 32) else c

/-- ASCII lower-casing of a string (the effect of `re.IGNORECASE` matching /
Python `str.lower` on the captured texts, which are ASCII). -/
def lowerString (s : String) : String := ⟨s.data.map lowerChar⟩

/-- Modelled from the claim: case-insensitive normalization of captured action
text to the canonical enum. -/
def normAction (s : String) : Option CAction :=
  match lowerString s with
  | "open" => some .openA
  | "close" => some .closeA
  | "bull" => some .bull
  | "bear" => some .bear
  | "buy" => some .buyA
  | "sell" => some .sellA
  | _ => none

/-- Modelled from the claim: case-insensitive normalization of the captured
position hint. -/
def normHint (s : String) : Option CHint :=
  match lowerString s with
  | "long" => some .longH
  | "short" => some .shortH
  | _ => none

/-- Result row of the spec §4.2 decision table: a (side, quantity) pair, or
the `UnhandledSignal` report. -/
inductive SpecIntent
  | intent (side : OrderSide) (qty : ℚ)
  | unhandledSig
deriving DecidableEq, Repr

/-- The decision table of spec §4.2, row for row (`q` is the current position
quantity, `cash` the computed buy-power sized quantity). -/
def specTable (act : CAction) (hint : Option CHint) (short : Bool) (q cash : ℚ) : SpecIntent :=
  if act = .openA ∧ hint = some .shortH then
    if ¬short ∧ q = 0 then .intent .sell 0
    else if ¬short ∧ 0 < q then .intent .sell q
    else if short ∧ 0 < q then .intent .sell q
    else if short ∧ q = 0 then .intent .sell cash
    else .intent .sell 0                                      -- q < 0: already short, no-op
  else if act = .closeA ∧ hint = some .shortH then
    if 0 < q then .intent .buy 0
    else if q = 0 then .intent .buy 0
    else .intent .buy |q|
  else if (act = .bull ∨ act = .buyA ∨ act = .openA) ∧ (hint = some .longH ∨ hint = none) then
    if q = 0 then .intent .buy cash else .intent .buy 0
  else if (act = .bear ∨ act = .sellA ∨ act = .closeA) ∧ (hint = some .longH ∨ hint = none) then
    if 0 < q then .intent .sell q else .intent .sell 0
  else .unhandledSig

/-- Row selector for the source's branch structure, keyed on the exact
(case-sensitive) literals the source compares against. -/
inductive RowKey
  | openShort
  | closeShort
  | entry
  | exit
  | unhandled
deriving DecidableEq, Repr

/-- Which branch of `createOrder` a captured (action, position) pair selects. -/
def rowKey (action : String) (pos : Option String) : RowKey :=
  if action = "Open" ∧ pos = some "Short" then .openShort
  else if action = "Close" ∧ pos = some "Short" then .closeShort
  else if (action = "Bull" ∨ action = "buy" ∨ action = "Open")
      ∧ (pos = some "Long" ∨ pos = none) then .entry
  else if (action = "Bear" ∨ action = "sell" ∨ action = "Close")
      ∧ (pos = some "Long" ∨ pos = none) then .exit
  else .unhandled

/-- The decision table the source actually implements, written as an explicit
table over `rowKey`: case-sensitive matching; `Close`+`Short` on a flat
position buys the cash-sized quantity; the entry row keys on the presence of
a position record; unmatched rows crash unless the cash-sized amount is 0. -/
def amendedDecision (o : Opts) (d : SignalData) : SizeOutcome :=
  let cash := cashAmount o d.price
  let q : ℚ := o.positions.getD 0
  match rowKey d.action d.position with
  | .openShort =>
    if q < 0 then .noop
    else if 0 < q then .submit .sell q
    else if o.short then finalizeOrder (some .sell) cash
    else .noop
  | .closeShort =>
    if 0 < q then .noop
    else if q < 0 then .submit .buy |q|
    else finalizeOrder (some .buy) cash
  | .entry =>
    if o.positions = none then finalizeOrder (some .buy) cash else .noop
  | .exit =>
    if o.positions ≠ none ∧ 0 < q then .submit .sell q else .noop
  | .unhandled =>
    if cash = 0 then .noop
    else if cash < 0 then .noop
    else .unboundSide

-- ---------------------------------------------------------------------------
-- Helper lemmas about the final checks of createOrder
-- ---------------------------------------------------------------------------

theorem finalizeOrder_zero (so : Option OrderSide) : finalizeOrder so 0 = .noop := by
  simp [finalizeOrder]

theorem finalizeOrder_pos (s : OrderSide) (a : ℚ) (h : 0 < a) :
    finalizeOrder (some s) a = .submit s a := by
  unfold finalizeOrder
  rw [if_neg h.ne', if_neg (not_lt.mpr h.le)]

theorem finalizeOrder_eq_submit {so : Option OrderSide} {a q : ℚ} {s : OrderSide}
    (h : finalizeOrder so a = .submit s q) : 0 < a ∧ q = a ∧ so = some s := by
  cases so with
  | none =>
    unfold finalizeOrder at h
    by_cases h0 : a = 0
    · rw [if_pos h0] at h; simp at h
    · rw [if_neg h0] at h
      by_cases hneg : a < 0
      · rw [if_pos hneg] at h; simp at h
      · rw [if_neg hneg] at h; simp at h
  | some s2 =>
    unfold finalizeOrder at h
    by_cases h0 : a = 0
    · rw [if_pos h0] at h; simp at h
    · rw [if_neg h0] at h
      by_cases hneg : a < 0
      · rw [if_pos hneg] at h; simp at h
      · rw [if_neg hneg] at h
        injection h with hs hq
        subst hs
        exact ⟨lt_of_le_of_ne (not_lt.mp hneg) (Ne.symm h0), hq.symm, rfl⟩

theorem noop_ne_submit (s : OrderSide) (q : ℚ) : SizeOutcome.noop ≠ .submit s q := by
  simp

theorem effBalance_nonneg (o : Opts) : 0 ≤ effBalance o := by
  unfold effBalance
  split_ifs with h1 h2
  · norm_num
  · exact le_refl 0
  · exact not_lt.mp h2

theorem pyInt_of_nonneg {q : ℚ} (h : 0 ≤ q) : pyInt q = ⌊q⌋ := by
  unfold pyInt
  rw [if_neg (not_lt.mpr h)]

-- ---------------------------------------------------------------------------
-- Concrete fixtures used by witnesses and counterexamples
-- ---------------------------------------------------------------------------

/-- The repository's default/paper settings (settings.py defaults plus the
timeout keys the code reads), as rationals. -/
def baseOpts : Opts where
  short := false
  buyPerc := 1/5
  balance := 0
  positions := none
  orders := []
  allOrders := []
  testMode := true
  enabled := true
  limit := true
  limitamt := 1/25
  limitThreshold := 100
  limitPerc := 1/2000
  maxTime := 10
  totalMaxTime := 30
  buyTimeout := "Cancel"
  sellTimeout := "Market"

/-- Captured data of the generic alert `order buy | MSFT@337.57 | ...`. -/
def dBuyMSFT : SignalData where
  action := "buy"
  position := none
  stock := "MSFT"
  price := 33757/100

/-- Captured data with action text `bull` (all lower case, as the
case-insensitive regex can capture it from an all-lower-case alert). -/
def dBullLower : SignalData where
  action := "bull"
  position := none
  stock := "MSFT"
  price := 33757/100

/-- Captured data of an LDC close-short alert at the MSFT price. -/
def dCloseShort : SignalData where
  action := "Close"
  position := some "Short"
  stock := "MSFT"
  price := 33757/100

/-- Captured data of an LDC alert captured as action `Bear`, hint `Short`
(e.g. `LDC Bearish Short ▲ | CLSK@4.015 | ...`). -/
def dBearShort : SignalData where
  action := "Bear"
  position := some "Short"
  stock := "CLSK"
  price := 803/200

/-- Generic sell alert for a symbol held with a fractional position. -/
def dSellX : SignalData where
  action := "sell"
  position := none
  stock := "X"
  price := 10

/-- Settings with a fractional open position of 1.5 shares. -/
def optsFracPos : Opts := { baseOpts with positions := some (3/2) }

-- ---------------------------------------------------------------------------
-- C1
-- ---------------------------------------------------------------------------

/-- Claim C1 counterexample.  Two concrete refutations of the claim that
`createOrder` reproduces the spec §4.2 decision table over case-insensitively
normalized texts: (a) the source text `bull` normalizes to the canonical Bull
action, whose table row (flat position) is Buy with the cash-sized quantity,
but the code's case-sensitive comparison against the literal `"Bull"` fails
and the signal falls into the unhandled branch, which crashes on the unbound
`side` local; (b) for canonical `Close`+`Short` on a flat position the table
row is (Buy, 0) — a no-op — but the code leaves `amount` at the cash-sized
value and submits (Buy, 59). -/
theorem c1_counterexample :
    (normAction "bull" = some CAction.bull ∧
      sizeDecision baseOpts dBullLower = .unboundSide) ∧
    (sizeDecision baseOpts dCloseShort = .submit .buy 59 ∧
      specTable .closeA (some .shortH) false 0 (cashAmount baseOpts dCloseShort.price) =
        .intent .buy 0 ∧
      (59 : ℚ) ≠ 0) := by
  refine ⟨⟨by decide, ?_⟩, ?_, by simp [specTable], by norm_num⟩
  · norm_num +decide [sizeDecision, finalizeOrder, cashAmount, effBalance, pyInt,
      baseOpts, dBullLower]
  · norm_num +decide [sizeDecision, finalizeOrder, cashAmount, effBalance, pyInt,
      baseOpts, dCloseShort]

/-- Claim C1 (amended): the sizing decision of `createOrder` agrees with the
decision table of §4.2 only after these corrections, under which it is a total
deterministic table: captured texts are matched case-sensitively against the
exact literals `Open`, `Close`, `Bull`, `Bear`, `buy`, `sell`, `Long`,
`Short`; the `Close`+`Short` row with flat position yields a Buy of the
cash-sized quantity rather than a no-op; the Bull/Buy/Open row keys on the
presence of a position record rather than on zero quantity; and a combination
matching no row raises an unbound-variable error unless the cash-sized
quantity is zero.  `amendedDecision` is that corrected table. -/
theorem c1_amended_table_equiv (o : Opts) (d : SignalData) :
    sizeDecision o d = amendedDecision o d := by
  by_cases h1 : d.action = "Open" ∧ d.position = some "Short"
  · have hk : rowKey d.action d.position = .openShort := by
      rw [rowKey, if_pos h1]
    simp only [sizeDecision, amendedDecision, hk, if_pos h1]
    rcases lt_trichotomy (o.positions.getD 0) 0 with hq | hq | hq
    · simp [hq]
    · cases hs : o.short <;> simp [hq, hs, finalizeOrder_zero, lt_irrefl]
    · have hq0 : ¬ o.positions.getD 0 < 0 := not_lt.mpr hq.le
      have hne : o.positions.getD 0 ≠ 0 := ne_of_gt hq
      cases hs : o.short <;> simp [hq, hq0, hne, hs, finalizeOrder_pos _ _ hq]
  · by_cases h2 : d.action = "Close" ∧ d.position = some "Short"
    · have hk : rowKey d.action d.position = .closeShort := by
        rw [rowKey, if_neg h1, if_pos h2]
      simp only [sizeDecision, amendedDecision, hk, if_neg h1, if_pos h2]
      rcases lt_trichotomy (o.positions.getD 0) 0 with hq | hq | hq
      · have hnp : ¬ 0 < o.positions.getD 0 := not_lt.mpr hq.le
        simp [hq, hnp, hq.ne, finalizeOrder_pos _ _ (abs_pos.mpr hq.ne)]
      · simp [hq, lt_irrefl]
      · simp [hq]
    · by_cases h3 : (d.action = "Bull" ∨ d.action = "buy" ∨ d.action = "Open")
          ∧ (d.position = some "Long" ∨ d.position = none)
      · have hk : rowKey d.action d.position = .entry := by
          rw [rowKey, if_neg h1, if_neg h2, if_pos h3]
        simp only [sizeDecision, amendedDecision, hk, if_neg h1, if_neg h2, if_pos h3]
        cases hp : o.positions with
        | none => simp
        | some v => simp [finalizeOrder_zero]
      · by_cases h4 : (d.action = "Bear" ∨ d.action = "sell" ∨ d.action = "Close")
            ∧ (d.position = some "Long" ∨ d.position = none)
        · have hk : rowKey d.action d.position = .exit := by
            rw [rowKey, if_neg h1, if_neg h2, if_neg h3, if_pos h4]
          simp only [sizeDecision, amendedDecision, hk, if_neg h1, if_neg h2, if_neg h3,
            if_pos h4]
          by_cases hc : o.positions ≠ none ∧ 0 < o.positions.getD 0
          · simp [hc, zero_add, finalizeOrder_pos _ _ hc.2]
          · simp [hc, finalizeOrder_zero]
        · have hk : rowKey d.action d.position = .unhandled := by
            rw [rowKey, if_neg h1, if_neg h2, if_neg h3, if_neg h4]
          simp only [sizeDecision, amendedDecision, hk, if_neg h1, if_neg h2, if_neg h3,
            if_neg h4]
          rfl

-- ---------------------------------------------------------------------------
-- C3
-- ---------------------------------------------------------------------------

/-- Claim C3 counterexample.  A flatten decision on a fractional position
(1.5 shares) submits the fractional quantity 3/2 unchanged — the submitted
order quantity is not a whole number. -/
theorem c3_counterexample :
    sizeDecision optsFracPos dSellX = .submit .sell (3/2) ∧
    ¬ ∃ n : ℤ, (3/2 : ℚ) = (n : ℚ) := by
  constructor
  · norm_num +decide [sizeDecision, finalizeOrder, optsFracPos, baseOpts, dSellX]
  · rintro ⟨n, hn⟩
    have h2 : (3 : ℚ) = 2 * (n : ℚ) := by linarith
    have h3 : (3 : ℤ) = 2 * n := by exact_mod_cast h2
    omega

/-- Claim C3 (amended): every submitted order quantity is strictly positive
(the `amount == 0` and `amount < 0` checks return before submission, so no
negative-quantity order is ever submitted), and it is either a whole number
(the cash-sized entry quantity, an `int()` truncation) or it passes the
(possibly fractional) current position quantity, or its absolute value,
through unchanged. -/
theorem c3_amended_positive_qty (o : Opts) (d : SignalData) (s : OrderSide) (q : ℚ)
    (h : sizeDecision o d = .submit s q) :
    0 < q ∧ ((∃ n : ℤ, q = (n : ℚ)) ∨ q = o.positions.getD 0 ∨ q = |o.positions.getD 0|) := by
  simp only [sizeDecision] at h
  split_ifs at h
  all_goals
    first
      | exact absurd h (noop_ne_submit _ _)
      | (obtain ⟨hpos, hq, hso⟩ := finalizeOrder_eq_submit h
         subst hq
         first
           | exact absurd hpos (lt_irrefl 0)
           | exact Option.noConfusion hso
           | exact ⟨hpos, Or.inr (Or.inl rfl)⟩
           | exact ⟨hpos, Or.inr (Or.inr rfl)⟩
           | exact ⟨hpos, Or.inl ⟨pyInt (effBalance o * o.buyPerc / d.price), rfl⟩⟩
           | exact ⟨hpos, Or.inr (Or.inl (zero_add _))⟩)

/-- Witness for C3 (amended), at the fractional-position flatten instance. -/
theorem c3_amended_positive_qty_witness :
    0 < (3/2 : ℚ) ∧ ((∃ n : ℤ, (3/2 : ℚ) = (n : ℚ)) ∨
      (3/2 : ℚ) = optsFracPos.positions.getD 0 ∨
      (3/2 : ℚ) = |optsFracPos.positions.getD 0|) :=
  c3_amended_positive_qty optsFracPos dSellX .sell (3/2)
    (by norm_num +decide [sizeDecision, finalizeOrder, optsFracPos, baseOpts, dSellX])

-- ---------------------------------------------------------------------------
-- C4
-- ---------------------------------------------------------------------------

/-- Claim C4 evaluation at the failing input.  The captured pair
(action `Bear`, hint `Short`) matches no decision-table row (`rowKey` is
`unhandled`); the code logs the unhandled order but then — because the
cash-sized `amount` (4981 here under the test balance) is nonzero — falls
through to `self.orderType(amount, side, ...)` with the local `side` never
assigned, raising `UnboundLocalError` instead of completing without an
exception. -/
theorem c4_unhandled_crash_eval :
    rowKey dBearShort.action dBearShort.position = .unhandled ∧
    sizeDecision baseOpts dBearShort = .unboundSide := by
  constructor
  · decide
  · norm_num +decide [sizeDecision, finalizeOrder, cashAmount, effBalance, pyInt,
      baseOpts, dBearShort]

-- ---------------------------------------------------------------------------
-- C6
-- ---------------------------------------------------------------------------

/-- Signal at a reference price exactly equal to the limit threshold. -/
def dAtThreshold : SignalData where
  action := "buy"
  position := none
  stock := "ABC"
  price := 100

/-- Modelled from the claim: the claimed limit price, with the threshold
comparison read as "at or above" (`referencePrice ≥ limitThreshold` selects
the percentage offset). -/
def claimLimitPrice (o : Opts) (price : ℚ) (side : OrderSide) : ℚ :=
  round2 (price + (if side = .buy then 1 else -1) *
    (if o.limitThreshold ≤ price then price * o.limitPerc else o.limitamt))

/-- Claim C6 counterexample.  At a reference price exactly equal to
`limitThreshold` (100), the code takes the absolute offset (0.04), producing
limit price 100.04, while the claim's "at or above" reading selects the
percentage offset (100 × 0.0005 = 0.05), predicting 100.05. -/
theorem c6_counterexample :
    orderType baseOpts dAtThreshold 5 .buy true =
      (.limitReq "ABC" (2501/25) 5 .buy, 1/25) ∧
    claimLimitPrice baseOpts dAtThreshold.price .buy = 2001/20 ∧
    ((2501 : ℚ)/25) ≠ 2001/20 := by
  refine ⟨?_, ?_, by norm_num⟩
  · norm_num [orderType, round2, roundHalfEven, baseOpts, dAtThreshold]
  · norm_num [claimLimitPrice, round2, roundHalfEven, baseOpts, dAtThreshold]

/-- The effective limit offset the source uses: the percentage of price when
the reference price is STRICTLY above the threshold, the configured absolute
amount otherwise. -/
def effLimitOffset (o : Opts) (price : ℚ) : ℚ :=
  if o.limitThreshold < price then price * o.limitPerc else o.limitamt

/-- Claim C6 (amended): with the limit option false the result is a Market
request with identical symbol, quantity and side; with it true the result is
a Limit request whose price is `round2(referencePrice + offset)` for Buy and
`round2(referencePrice - offset)` for Sell, where the offset is
`referencePrice * limitPerc` when the price is STRICTLY above
`limitThreshold` and the configured absolute `limitamt` otherwise; quantity
and side pass through unchanged. -/
theorem c6_amended_limit_price (o : Opts) (d : SignalData) (amount : ℚ) (side : OrderSide) :
    orderType o d amount side false = (.market d.stock amount side, o.limitamt) ∧
    orderType o d amount side true =
      (.limitReq d.stock
        (round2 (d.price +
          (if side = .buy then effLimitOffset o d.price else -(effLimitOffset o d.price))))
        amount side,
       effLimitOffset o d.price) :=
  ⟨rfl, rfl⟩

-- ---------------------------------------------------------------------------
-- C7
-- ---------------------------------------------------------------------------

/-- Claim C7: for every cash-sized entry decision (an entry-row signal on a
symbol with no open position record), the computed quantity equals
`floor(effectiveBalance * buyPerc / referencePrice)`, where the effective
balance is the fixed test balance 100000 when test mode is active and
otherwise the account cash clamped to zero when negative.  (The result passes
through `finalizeOrder`, which turns a zero quantity into a no-op and
otherwise submits a Buy.) -/
theorem c7_cash_sized_entry (o : Opts) (d : SignalData)
    (hk : rowKey d.action d.position = .entry)
    (hpos : o.positions = none)
    (hbp : 0 ≤ o.buyPerc) (hpr : 0 < d.price) :
    sizeDecision o d =
      finalizeOrder (some .buy) ((⌊effBalance o * o.buyPerc / d.price⌋ : ℤ) : ℚ) ∧
    effBalance o = (if o.testMode then 100000 else max o.balance 0) := by
  constructor
  · unfold rowKey at hk
    split_ifs at hk with h1 h2 h3 h4
    simp only [sizeDecision]
    rw [if_neg h1, if_neg h2, if_pos h3, hpos]
    have hif : (if (none : Option ℚ) ≠ none then (0 : ℚ) else cashAmount o d.price) =
        cashAmount o d.price := by simp
    rw [hif]
    have hx : 0 ≤ effBalance o * o.buyPerc / d.price :=
      div_nonneg (mul_nonneg (effBalance_nonneg o) hbp) hpr.le
    rw [cashAmount, pyInt_of_nonneg hx]
  · unfold effBalance
    split_ifs with ht hb
    · rfl
    · exact (max_eq_right hb.le).symm
    · exact (max_eq_left (not_lt.mp hb)).symm

/-- Witness for C7: the spec scenario `order buy | MSFT@337.57 | ...` with a
flat position, buyPerc = 0.2 and test balance 100000 decides Buy with
quantity exactly 59. -/
theorem c7_cash_sized_entry_witness :
    sizeDecision baseOpts dBuyMSFT = .submit .buy 59 := by
  have h := (c7_cash_sized_entry baseOpts dBuyMSFT (by decide) rfl
    (by norm_num [baseOpts]) (by norm_num [dBuyMSFT])).1
  rw [h]
  norm_num [finalizeOrder, effBalance, baseOpts, dBuyMSFT]

-- ---------------------------------------------------------------------------
-- Orchestration: one unit of work over the shared module-level settings
-- ---------------------------------------------------------------------------

/-- One remote-broker snapshot consumed by a unit of work: what
`get_orders()`, `get_orders(symbol filter)`, `get_open_position` and
`get_account().cash` return for this request. -/
structure Broker where
  allOrders : List ℕ
  symOrders : List ℕ
  position : Option ℚ
  cash : ℚ
deriving DecidableEq, Repr

/-- The options record after `setOrders`/`setPosition`/`setBalance` stored
the broker snapshot into the shared settings dict. -/
def loadBroker (o : Opts) (b : Broker) : Opts :=
  { o with
      allOrders := b.allOrders
      orders := b.symOrders
      positions := b.position
      balance := b.cash }

/-- The effect of processing one inbound request on the module-level
`settings` dict.  `self.options = settings` copies the reference, not the
dict, so `setOrders`/`setPosition`/`setBalance` store broker state into the
shared dict, `createOrder` adjusts the balance in it, and the `orderType`
call on the submit path overwrites `limitamt` in it.  When the
enabled/testMode/real-money conflict raises, nothing has been stored yet;
with `enabled` false the constructor body is skipped entirely. -/
def processRequest (o : Opts) (paper : Bool) (d : SignalData) (b : Broker) : Opts :=
  if o.enabled ∧ o.testMode ∧ ¬paper then o
  else if o.enabled then
    (createOrderRun (loadBroker o b) d).2
  else o

/-- Observable steps of one unit of work (local phases and broker calls). -/
inductive Step
  | parse
  | fetchOrders
  | fetchPosition
  | fetchAccount
  | cancelCall
  | decide
  | submitCall
  | verify
deriving DecidableEq, Repr

/-- `cancelOrderById`: with `enabled` false it logs and returns without any
broker call; with an explicit id it cancels that order; with no id it cancels
each open order in `options["orders"]`. -/
def cancelOrderSteps (o : Opts) (id : Option ℕ) : List Step :=
  if ¬o.enabled then []
  else
    match id with
    | some _ => [Step.cancelCall]
    | none => o.orders.map (fun _ => Step.cancelCall)

/-- `submitOrder`: returns silently when no `order_data` was built; with
`enabled` false it logs and returns without calling the broker; otherwise it
submits the order and supervises it with `verifyOrder`. -/
def submitOrderSteps (o : Opts) (hasOrderData : Bool) : List Step :=
  if ¬hasOrderData then []
  else if ¬o.enabled then []
  else [Step.submitCall, Step.verify]

/-- The `AutomatedTrader.__init__` control flow after the options dict is
loaded (with empty `newOptions`): the configuration-conflict check, then —
only when `enabled` — the `setData`; `setOrders`; `setPosition`;
`setBalance`; `createOrder` sequence.  Returns the steps performed and the
error raised, if any. -/
def initRun (o : Opts) (paper : Bool) (d : SignalData) (b : Broker) :
    List Step × Option String :=
  if o.enabled ∧ o.testMode ∧ ¬paper then
    ([], some "testMode and real money keys being used, exiting. Switch one or the other.")
  else if o.enabled then
    let o1 : Opts := loadBroker o b
    let pre := [Step.parse, Step.fetchOrders, Step.fetchPosition, Step.fetchAccount]
    let cancels := if b.symOrders.length > 0 then cancelOrderSteps o1 none else []
    match sizeDecision o1 d with
    | .submit _ _ => (pre ++ cancels ++ [Step.decide] ++ submitOrderSteps o1 true, none)
    | .noop => (pre ++ cancels ++ [Step.decide], none)
    | .unboundSide => (pre ++ cancels ++ [Step.decide], some "UnboundLocalError: side")
  else ([], none)

/-- Broker snapshot for a flat account: no orders, no position, cash 0. -/
def bFlat : Broker where
  allOrders := []
  symOrders := []
  position := none
  cash := 0

-- ---------------------------------------------------------------------------
-- C8
-- ---------------------------------------------------------------------------

/-- Claim C8 counterexample.  Processing `order buy | MSFT@337.57 | ...` in a
paper/testMode configuration overwrites the shared `limitamt` setting with
337.57 × 0.0005 = 0.168785 (because 337.57 > limitThreshold and the limit
order path mutates `self.options["limitamt"]` in place, and `self.options`
aliases the module-level settings dict), so a second AutomatedTrader instance
reads limitamt 0.168785 instead of the configured 0.04: the configuration it
reads is NOT the same as if the first request had never been processed. -/
theorem c8_counterexample :
    (processRequest baseOpts true dBuyMSFT bFlat).limitamt = 33757/200000 ∧
    baseOpts.limitamt = 1/25 ∧
    ((33757 : ℚ)/200000) ≠ 1/25 := by
  refine ⟨?_, rfl, by norm_num⟩
  norm_num +decide [processRequest, createOrderRun, sizeDecision, finalizeOrder,
    orderType, cashAmount, effBalance, pyInt, loadBroker, baseOpts, dBuyMSFT, bFlat]

/-- Claim C8 (amended): processing a request mutates the shared module-level
settings dict, and a later instance reads the mutated values: after an
enabled, non-conflicting request whose decision submits an order with the
limit option on at a price strictly above `limitThreshold`, the stored
`limitamt` becomes `price * limitPerc`, and the stored `orders` and
`positions` are the broker state fetched for that request; the static
configuration fields (`buyPerc`, `testMode`, `enabled`, `limitThreshold`,
`limitPerc`) are preserved. -/
theorem c8_amended_shared_settings (o : Opts) (paper : Bool) (d : SignalData) (b : Broker)
    (s : OrderSide) (q : ℚ)
    (hen : o.enabled = true) (hp : o.testMode = true → paper = true)
    (hdec : sizeDecision (loadBroker o b) d = .submit s q)
    (hlim : o.limit = true) (hth : o.limitThreshold < d.price) :
    (processRequest o paper d b).limitamt = d.price * o.limitPerc ∧
    (processRequest o paper d b).orders = b.symOrders ∧
    (processRequest o paper d b).positions = b.position ∧
    (processRequest o paper d b).buyPerc = o.buyPerc ∧
    (processRequest o paper d b).testMode = o.testMode ∧
    (processRequest o paper d b).enabled = o.enabled ∧
    (processRequest o paper d b).limitThreshold = o.limitThreshold ∧
    (processRequest o paper d b).limitPerc = o.limitPerc := by
  have hcond : ¬(o.enabled = true ∧ o.testMode = true ∧ ¬paper = true) := by
    rintro ⟨-, ht, hpn⟩
    exact hpn (hp ht)
  have hpr : processRequest o paper d b = (createOrderRun (loadBroker o b) d).2 := by
    unfold processRequest
    rw [if_neg hcond, if_pos hen]
  rw [hpr]
  simp only [createOrderRun]
  rw [hdec]
  simp only [orderType, loadBroker, hlim]
  norm_num
  intro hle
  exact absurd hth (not_lt.mpr hle)

/-- Witness for C8 (amended), at the MSFT scenario. -/
theorem c8_amended_shared_settings_witness :
    (processRequest baseOpts true dBuyMSFT bFlat).limitamt =
      dBuyMSFT.price * baseOpts.limitPerc ∧
    (processRequest baseOpts true dBuyMSFT bFlat).orders = bFlat.symOrders ∧
    (processRequest baseOpts true dBuyMSFT bFlat).positions = bFlat.position ∧
    (processRequest baseOpts true dBuyMSFT bFlat).buyPerc = baseOpts.buyPerc ∧
    (processRequest baseOpts true dBuyMSFT bFlat).testMode = baseOpts.testMode ∧
    (processRequest baseOpts true dBuyMSFT bFlat).enabled = baseOpts.enabled ∧
    (processRequest baseOpts true dBuyMSFT bFlat).limitThreshold = baseOpts.limitThreshold ∧
    (processRequest baseOpts true dBuyMSFT bFlat).limitPerc = baseOpts.limitPerc :=
  c8_amended_shared_settings baseOpts true dBuyMSFT bFlat .buy 59 rfl (fun _ => rfl)
    (by norm_num +decide [sizeDecision, finalizeOrder, cashAmount, effBalance, pyInt,
      loadBroker, baseOpts, dBuyMSFT, bFlat])
    rfl (by norm_num [baseOpts, dBuyMSFT])

-- ---------------------------------------------------------------------------
-- C9
-- ---------------------------------------------------------------------------

/-- The default settings with order submission disabled. -/
def optsDisabled : Opts := { baseOpts with enabled := false }

/-- Claim C9 counterexample.  With `enabled` false the constructor's
`elif self.options["enabled"]:` guard skips the whole body: no parsing, no
fetching, no sizing, no order construction happens at all — the unit of work
is empty, not a dry run of the decision logic. -/
theorem c9_counterexample :
    initRun optsDisabled true dBuyMSFT bFlat = ([], none) ∧
    Step.parse ∉ (initRun optsDisabled true dBuyMSFT bFlat).1 ∧
    Step.decide ∉ (initRun optsDisabled true dBuyMSFT bFlat).1 := by
  refine ⟨rfl, ?_, ?_⟩ <;> simp [initRun, optsDisabled, baseOpts]

/-- Claim C9 (amended): with `enabled` false the constructor performs no
processing at all (no parse, no broker fetch, no decision, no submission, no
error); the `submitOrder` and `cancelOrderById` methods themselves also guard
on `enabled` and return without broker calls when invoked directly (e.g. by
tests); and with `testMode` true the sizing balance is the fixed 100000
rather than the queried account cash. -/
theorem c9_amended_disabled_skips_all (o : Opts) (paper : Bool) (d : SignalData) (b : Broker)
    (hoff : o.enabled = false) :
    initRun o paper d b = ([], none) ∧
    (∀ hasData : Bool, submitOrderSteps o hasData = []) ∧
    (∀ id : Option ℕ, cancelOrderSteps o id = []) ∧
    (o.testMode = true → effBalance o = 100000) := by
  refine ⟨?_, ?_, ?_, ?_⟩
  · simp [initRun, hoff]
  · intro hasData
    cases hasData <;> simp [submitOrderSteps, hoff]
  · intro id
    cases id <;> simp [cancelOrderSteps, hoff]
  · intro ht
    simp [effBalance, ht]

/-- Witness for C9 (amended), at the disabled default settings. -/
theorem c9_amended_disabled_skips_all_witness :
    initRun optsDisabled true dBuyMSFT bFlat = ([], none) ∧
    (∀ hasData : Bool, submitOrderSteps optsDisabled hasData = []) ∧
    (∀ id : Option ℕ, cancelOrderSteps optsDisabled id = []) ∧
    (optsDisabled.testMode = true → effBalance optsDisabled = 100000) :=
  c9_amended_disabled_skips_all optsDisabled true dBuyMSFT bFlat rfl

-- ---------------------------------------------------------------------------
-- C10
-- ---------------------------------------------------------------------------

/-- Claim C10: constructing the trader with `enabled` true, `testMode` true
and real-money keys (paper false) raises the configuration-conflict exception
before any account, order or position fetch and before any order submission:
the constructor performs no steps at all under this conflict. -/
theorem c10_conflict_raises_first (o : Opts) (paper : Bool) (d : SignalData) (b : Broker)
    (hen : o.enabled = true) (ht : o.testMode = true) (hpf : paper = false) :
    initRun o paper d b =
      ([], some "testMode and real money keys being used, exiting. Switch one or the other.") ∧
    Step.fetchAccount ∉ (initRun o paper d b).1 ∧
    Step.fetchOrders ∉ (initRun o paper d b).1 ∧
    Step.fetchPosition ∉ (initRun o paper d b).1 ∧
    Step.submitCall ∉ (initRun o paper d b).1 := by
  have hcond : (o.enabled = true ∧ o.testMode = true ∧ ¬paper = true) :=
    ⟨hen, ht, by simp [hpf]⟩
  have h1 : initRun o paper d b =
      ([], some "testMode and real money keys being used, exiting. Switch one or the other.") := by
    unfold initRun
    rw [if_pos hcond]
  refine ⟨h1, ?_, ?_, ?_, ?_⟩ <;> simp [h1]

/-- Witness for C10: the default (testMode, enabled) settings constructed
with real-money keys. -/
theorem c10_conflict_raises_first_witness :
    initRun baseOpts false dBuyMSFT bFlat =
      ([], some "testMode and real money keys being used, exiting. Switch one or the other.") ∧
    Step.fetchAccount ∉ (initRun baseOpts false dBuyMSFT bFlat).1 ∧
    Step.fetchOrders ∉ (initRun baseOpts false dBuyMSFT bFlat).1 ∧
    Step.fetchPosition ∉ (initRun baseOpts false dBuyMSFT bFlat).1 ∧
    Step.submitCall ∉ (initRun baseOpts false dBuyMSFT bFlat).1 :=
  c10_conflict_raises_first baseOpts false dBuyMSFT bFlat rfl rfl rfl

-- ---------------------------------------------------------------------------
-- OrderSupervisor: AutomatedTrader.verifyOrder (lines 420-510)
-- ---------------------------------------------------------------------------

/-- A broker order snapshot: exactly the fields `verifyOrder` reads
(`filled_at`, `failed_at`, `canceled_at`, `side`, `qty`, `filled_qty`). -/
structure BOrder where
  filledAt : Option ℕ
  failedAt : Option ℕ
  canceledAt : Option ℕ
  side : OrderSide
  qty : ℚ
  filledQty : ℚ
deriving DecidableEq, Repr

/-- The while-loop guard of `verifyOrder` exits when one of the three
timestamps is set. -/
def isTerminal (o : BOrder) : Bool :=
  o.filledAt.isSome || o.failedAt.isSome || o.canceledAt.isSome

/-- How a normal `verifyOrder` return is classified: via one of the three
terminal branches after the loop, or via the `totalMaxTime` failsafe branch
inside the loop (which returns True after issuing a cancel). -/
inductive VOut
  | canceled
  | failed
  | filled
  | failsafe
deriving DecidableEq, Repr

/-- The post-loop if/elif chain of `verifyOrder`: canceled checked first,
then failed, then filled. -/
def classify (o : BOrder) : VOut :=
  if o.canceledAt.isSome then .canceled
  else if o.failedAt.isSome then .failed
  else .filled

/-- The Python boolean `verifyOrder` returns: False for the failed branch,
True for canceled, filled and the failsafe. -/
def outBool : VOut → Bool
  | .failed => false
  | _ => true

/-- Broker actions the supervisor can perform: a cancel by id, and the
submission of the replacement market order for the unfilled remainder. -/
inductive Ev
  | cancel
  | submitEv (qty : ℚ) (side : OrderSide)
deriving DecidableEq, Repr

/-- The broker oracle: the order snapshot a fetch by client id returns at a
given clock tick, and the order a submit at a given clock tick returns.
Quantifying over arbitrary oracles over-approximates every possible broker
behaviour. -/
structure World where
  fetch : ℕ → BOrder
  newOrder : ℕ → BOrder

/-- `self.cancelOrderById(order.id.hex)` inside the supervisor: an actual
broker cancel only when `enabled` (otherwise the method logs and returns). -/
def cancelEvs (o : Opts) : List Ev := if o.enabled then [Ev.cancel] else []

/-- Result of a `verifyOrder` call: a normal return (which branch returned,
the order snapshot it returned on, the clock, the action log so far), a
raised exception, or fuel exhaustion (the polling loop still running after
the given number of steps). -/
inductive VRes
  | ok (out : VOut) (fin : BOrder) (clock : ℕ) (log : List Ev)
  | raised (clock : ℕ) (log : List Ev)
  | nofuel
deriving DecidableEq, Repr

/-- Propagate fuel exhaustion and raised exceptions from a nested
`verifyOrder` call; continue with its normal return value (the Python
call/return sequencing). -/
def andThen (r : VRes) (f : VOut → BOrder → ℕ → List Ev → VRes) : VRes :=
  match r with
  | .nofuel => .nofuel
  | .raised c l => .raised c l
  | .ok out fin c l => f out fin c l

/-- The polling loop of `AutomatedTrader.verifyOrder`, one poll iteration per
unit of fuel.  `pside` is the order side pinned at entry
(`orderSideBuy`/`orderSideSell`), `now` the `time.time()` captured at entry,
`clock` the current time; each `time.sleep(1)` advances the clock by one and
refetches the order.  Branches, in source order: exit on a terminal
timestamp; the per-order timeout escalation (skipped when the `timeout` flag
is set): Cancel policy cancels, refetches and recursively verifies with the
flag set (its boolean result is only logged) before continuing the loop;
Market policy cancels, refetches, verifies, and on success submits a market
order for the unfilled remainder (`qty - filled_qty` of the refetched order)
and verifies it, raising "cancel order failed" when the cancellation
verification returned False; a missing policy raises; then the `totalMaxTime`
failsafe cancels and returns True; otherwise sleep one second, refetch, and
loop.  Recursive calls pin a fresh side and `now`, as in the source. -/
def verifyLoop (w : World) (o : Opts) :
    ℕ → OrderSide → ℕ → BOrder → Bool → ℕ → List Ev → VRes
  | 0, _, _, _, _, _, _ => .nofuel
  | fuel + 1, pside, now, ord, timeout, clock, log =>
    if isTerminal ord then .ok (classify ord) ord clock log
    else if clock - now > o.maxTime ∧ timeout = false then
      if (o.buyTimeout = "Cancel" ∧ pside = .buy) ∨
         (o.sellTimeout = "Cancel" ∧ pside = .sell) then
        andThen (verifyLoop w o fuel (w.fetch clock).side clock (w.fetch clock) true clock
            (log ++ cancelEvs o))
          (fun _ _ c l => verifyLoop w o fuel pside now (w.fetch (c + 1)) true (c + 1) l)
      else if (o.buyTimeout = "Market" ∧ pside = .buy) ∨
              (o.sellTimeout = "Market" ∧ pside = .sell) then
        andThen (verifyLoop w o fuel (w.fetch clock).side clock (w.fetch clock) true clock
            (log ++ cancelEvs o))
          (fun out1 _ c l =>
            if outBool out1 then
              andThen (verifyLoop w o fuel (w.newOrder c).side c (w.newOrder c) true c
                  (l ++ [Ev.submitEv ((w.fetch clock).qty - (w.fetch clock).filledQty)
                         (w.fetch clock).side]))
                (fun _ _ c2 l2 =>
                  verifyLoop w o fuel pside now (w.fetch (c2 + 1)) true (c2 + 1) l2)
            else .raised c l)
      else .raised clock log
    else if clock - now > o.totalMaxTime then
      .ok .failsafe ord clock (log ++ cancelEvs o)
    else
      verifyLoop w o fuel pside now (w.fetch (clock + 1)) timeout (clock + 1) log

/-- A `verifyOrder(order, timeout)` call: pins the order side and the entry
time, then runs the polling loop. -/
def verifyOrder (w : World) (o : Opts) (fuel : ℕ) (ord : BOrder) (timeout : Bool)
    (clock : ℕ) (log : List Ev) : VRes :=
  verifyLoop w o fuel ord.side clock ord timeout clock log

theorem classify_ne_failsafe (o : BOrder) : classify o ≠ .failsafe := by
  unfold classify
  split_ifs <;> simp

theorem andThen_eq_ok {r : VRes} {f : VOut → BOrder → ℕ → List Ev → VRes}
    {out : VOut} {fin : BOrder} {c : ℕ} {l : List Ev}
    (h : andThen r f = .ok out fin c l) :
    ∃ out1 fin1 c1 l1, r = .ok out1 fin1 c1 l1 ∧ f out1 fin1 c1 l1 = .ok out fin c l := by
  cases r with
  | nofuel => simp [andThen] at h
  | raised c1 l1 => simp [andThen] at h
  | ok out1 fin1 c1 l1 => exact ⟨out1, fin1, c1, l1, rfl, h⟩

theorem verifyLoop_ok_char (w : World) (o : Opts) :
    ∀ fuel pside now ord timeout clock log out fin c l,
      verifyLoop w o fuel pside now ord timeout clock log = .ok out fin c l →
      (out ≠ .failsafe → isTerminal fin = true ∧ out = classify fin) ∧
      (out = .failsafe → ∃ l0, l = l0 ++ cancelEvs o) := by
  intro fuel
  induction fuel with
  | zero =>
    intro pside now ord timeout clock log out fin c l h
    simp [verifyLoop] at h
  | succ n ih =>
    intro pside now ord timeout clock log out fin c l h
    simp only [verifyLoop] at h
    by_cases h1 : isTerminal ord = true
    · rw [if_pos h1] at h
      injection h with e1 e2 e3 e4
      subst e1; subst e2; subst e4
      exact ⟨fun _ => ⟨h1, rfl⟩, fun hfs => absurd hfs (classify_ne_failsafe ord)⟩
    · rw [if_neg h1] at h
      by_cases h2 : clock - now > o.maxTime ∧ timeout = false
      · rw [if_pos h2] at h
        by_cases h3 : (o.buyTimeout = "Cancel" ∧ pside = OrderSide.buy) ∨
            (o.sellTimeout = "Cancel" ∧ pside = OrderSide.sell)
        · rw [if_pos h3] at h
          obtain ⟨o1, f1, c1, l1, -, h⟩ := andThen_eq_ok h
          exact ih _ _ _ _ _ _ _ _ _ _ h
        · rw [if_neg h3] at h
          by_cases h4 : (o.buyTimeout = "Market" ∧ pside = OrderSide.buy) ∨
              (o.sellTimeout = "Market" ∧ pside = OrderSide.sell)
          · rw [if_pos h4] at h
            obtain ⟨o1, f1, c1, l1, -, h⟩ := andThen_eq_ok h
            by_cases hb : outBool o1 = true
            · rw [if_pos hb] at h
              obtain ⟨o2, f2, c2, l2, -, h⟩ := andThen_eq_ok h
              exact ih _ _ _ _ _ _ _ _ _ _ h
            · rw [if_neg hb] at h
              simp at h
          · rw [if_neg h4] at h
            simp at h
      · rw [if_neg h2] at h
        by_cases h5 : clock - now > o.totalMaxTime
        · rw [if_pos h5] at h
          injection h with e1 e2 e3 e4
          subst e1; subst e2; subst e4
          exact ⟨fun hns => absurd rfl hns, fun _ => ⟨log, rfl⟩⟩
        · rw [if_neg h5] at h
          exact ih _ _ _ _ _ _ _ _ _ _ h

theorem verifyLoop_failsafe_aux (w : World) (o : Opts) (now : ℕ)
    (hlt : o.totalMaxTime < o.maxTime) :
    ∀ fuel clock ord pside log,
      now ≤ clock → clock - now ≤ o.totalMaxTime + 1 →
      o.totalMaxTime + 2 - (clock - now) ≤ fuel →
      ∃ out fin c l,
        verifyLoop w o fuel pside now ord false clock log = .ok out fin c l ∧
        ((out = classify fin ∧ isTerminal fin = true ∧ l = log) ∨
         (out = .failsafe ∧ l = log ++ cancelEvs o)) := by
  intro fuel
  induction fuel with
  | zero =>
    intro clock ord pside log h1 h2 h3
    exfalso
    omega
  | succ n ih =>
    intro clock ord pside log h1 h2 h3
    by_cases hterm : isTerminal ord = true
    · exact ⟨classify ord, ord, clock, log,
        by rw [verifyLoop, if_pos hterm], Or.inl ⟨rfl, hterm, rfl⟩⟩
    · have hm : ¬(clock - now > o.maxTime ∧ (false : Bool) = false) := by
        rintro ⟨hgt, -⟩
        omega
      by_cases hfs : clock - now > o.totalMaxTime
      · refine ⟨.failsafe, ord, clock, log ++ cancelEvs o, ?_, Or.inr ⟨rfl, rfl⟩⟩
        rw [verifyLoop, if_neg hterm, if_neg hm, if_pos hfs]
      · obtain ⟨out, fin, c, l, heq, hcase⟩ := ih (clock + 1) (w.fetch (clock + 1)) pside log
          (by omega) (by omega) (by omega)
        refine ⟨out, fin, c, l, ?_, hcase⟩
        rw [verifyLoop, if_neg hterm, if_neg hm, if_neg hfs]
        exact heq

/-- A never-terminal (still open) order snapshot. -/
def ordOpen : BOrder where
  filledAt := none
  failedAt := none
  canceledAt := none
  side := .buy
  qty := 1
  filledQty := 0

/-- An order snapshot already filled. -/
def ordFilled : BOrder where
  filledAt := some 0
  failedAt := none
  canceledAt := none
  side := .buy
  qty := 1
  filledQty := 1

/-- A broker in which every fetch and every submit returns the open order
(the order never completes). -/
def wOpen : World where
  fetch := fun _ => ordOpen
  newOrder := fun _ => ordOpen

-- ---------------------------------------------------------------------------
-- C2
-- ---------------------------------------------------------------------------

/-- Claim C2: whenever `verifyOrder` returns normally, the result is one of
Filled, Canceled or Failed, and the function never returns while the broker
still reports the order open, except for the totalMaxTime failsafe branch
which issues a cancel before returning; moreover a terminal status observed
at a poll is returned immediately, taking priority over both timeout checks.
First conjunct: for every call (hence every poll iteration and every nested
escalation call), a normal non-failsafe return carries a terminal order
snapshot and is classified by it, and a failsafe return has just issued a
cancel (the last logged action).  Second conjunct: on a terminal snapshot the
call returns at once, with the clock and action log unchanged, regardless of
the timers and the timeout flag. -/
theorem c2_verify_returns_terminal (w : World) (o : Opts) :
    (∀ fuel pside now ord timeout clock log out fin c l,
      verifyLoop w o fuel pside now ord timeout clock log = .ok out fin c l →
      (out ≠ .failsafe → isTerminal fin = true ∧ out = classify fin) ∧
      (out = .failsafe → o.enabled = true → ∃ l0, l = l0 ++ [Ev.cancel])) ∧
    (∀ fuel ord timeout clock log, isTerminal ord = true →
      verifyOrder w o (fuel + 1) ord timeout clock log = .ok (classify ord) ord clock log) := by
  constructor
  · intro fuel pside now ord timeout clock log out fin c l h
    have hc := verifyLoop_ok_char w o fuel pside now ord timeout clock log out fin c l h
    refine ⟨hc.1, fun hfs hen => ?_⟩
    obtain ⟨l0, hl⟩ := hc.2 hfs
    refine ⟨l0, ?_⟩
    rw [hl, cancelEvs, if_pos hen]
  · intro fuel ord timeout clock log hterm
    unfold verifyOrder
    rw [verifyLoop, if_pos hterm]

/-- Witness for C2: a filled order is returned immediately as Filled with no
broker action. -/
theorem c2_verify_returns_terminal_witness :
    verifyOrder wOpen baseOpts 1 ordFilled false 0 [] =
      .ok (classify ordFilled) ordFilled 0 [] ∧
    isTerminal ordFilled = true :=
  ⟨(c2_verify_returns_terminal wOpen baseOpts).2 0 ordFilled false 0 [] rfl, rfl⟩

-- ---------------------------------------------------------------------------
-- C5
-- ---------------------------------------------------------------------------

/-- Settings under which both timeouts elapse at the first poll after entry
(Cancel policy on the buy side, as in the defaults). -/
def optsZeroTimes : Opts := { baseOpts with maxTime := 0, totalMaxTime := 0 }

/-- Claim C5 counterexample.  With maxTime = totalMaxTime = 0 (so elapsed
time exceeds totalMaxTime from the first poll after entry onward) and the
Cancel escalation policy, the run does NOT cancel-and-return at the first
poll where elapsed exceeds totalMaxTime (clock 1): the per-order timeout
branch has priority (if/elif) and escalates first, and the nested
verification measures its own elapsed time from its own entry.  The run
issues three cancels (escalation, nested failsafe, outer failsafe) and only
returns at clock 3, instead of the claimed unconditional single
cancel-and-return at clock 1. -/
theorem c5_counterexample :
    verifyOrder wOpen optsZeroTimes 10 ordOpen false 0 [] =
      .ok .failsafe ordOpen 3 [Ev.cancel, Ev.cancel, Ev.cancel] ∧
    verifyOrder wOpen optsZeroTimes 10 ordOpen false 0 [] ≠
      .ok .failsafe ordOpen 1 [Ev.cancel] := by
  have h : verifyOrder wOpen optsZeroTimes 10 ordOpen false 0 [] =
      .ok .failsafe ordOpen 3 [Ev.cancel, Ev.cancel, Ev.cancel] := by decide
  refine ⟨h, ?_⟩
  rw [h]
  simp

/-- Claim C5 (amended): once the per-order timeout branch is out of the way —
in particular for every run with totalMaxTime strictly smaller than maxTime —
exceeding totalMaxTime cancels and returns as a failsafe before the
escalation logic can ever fire: with enough fuel the supervisor returns
either a terminal result observed before the deadline (no broker action at
all, log unchanged) or the failsafe (exactly one cancel appended to the log);
no escalation cancel, no cancel-and-replace submission, and no raised
policy-lookup error occur. -/
theorem c5_amended_failsafe (w : World) (o : Opts) (fuel : ℕ) (ord : BOrder)
    (clock : ℕ) (log : List Ev)
    (hlt : o.totalMaxTime < o.maxTime) (hfuel : o.totalMaxTime + 2 ≤ fuel) :
    ∃ out fin c l,
      verifyOrder w o fuel ord false clock log = .ok out fin c l ∧
      ((out = classify fin ∧ isTerminal fin = true ∧ l = log) ∨
       (out = .failsafe ∧ l = log ++ cancelEvs o)) :=
  verifyLoop_failsafe_aux w o clock hlt fuel clock ord ord.side log le_rfl (by omega)
    (by omega)

/-- Settings with totalMaxTime (0) strictly below maxTime (1). -/
def optsFailsafe : Opts := { baseOpts with maxTime := 1, totalMaxTime := 0 }

/-- Witness for C5 (amended), on a never-completing order. -/
theorem c5_amended_failsafe_witness :
    ∃ out fin c l,
      verifyOrder wOpen optsFailsafe 2 ordOpen false 0 [] = .ok out fin c l ∧
      ((out = classify fin ∧ isTerminal fin = true ∧ l = ([] : List Ev)) ∨
       (out = .failsafe ∧ l = [] ++ cancelEvs optsFailsafe)) :=
  c5_amended_failsafe wOpen optsFailsafe 2 ordOpen 0 [] (by decide) (by decide)
